import Mathlib

/-!
Verification of the ClawDex pre-broadcast safety pipeline.

This file gives a shallow embedding, in Lean 4, of the core safety
functions of the repository: the simulation diff engine and transfer
validator (src/core/simulate.ts), the safety guardrail validator
(src/core/safety.ts), the Jupiter quote client retry logic
(src/core/jupiter.ts), and the receipt ledger (src/core/receipts.ts).

Modelling conventions:
- Solana addresses (base58 strings produced by toBase58) are modelled as
  plain strings.
- JavaScript numbers appearing in quotes and configs are modelled as
  rationals; raw token amounts (decimal digit strings parsed by Number)
  are modelled as naturals, and balance changes as integers.
- A JavaScript Set is modelled as a duplicate-free list in insertion
  order (insert-if-absent), and a JavaScript Map keyed by
  accountIndex and mint as an association list whose set operation
  overwrites in place.
- External effects (fetch, filesystem) are modelled by explicit inputs:
  an HTTP transport is a function from the attempt number to a response,
  and the receipt ledger file is the list of parse outcomes of its lines.
-/

set_option autoImplicit false

namespace ClawDex

/-- Insertion into a JavaScript Set, modelled on lists: append the element
only when it is not already present, preserving insertion order. -/
def addIfAbsent {α : Type} [DecidableEq α] (l : List α) (a : α) : List α :=
  if a ∈ l then l else l ++ [a]

/-! ## Data model (src/types.ts) -/

/-- TokenChange from src/types.ts: one net balance change for a mint. -/
structure TokenChange where
  mint : String
  symbol : Option String
  change : Int
  decimals : Nat
deriving DecidableEq, Repr

/-- TransferDiff from src/types.ts: the structured result of simulating a
transaction. The destinations field is the insertion-order listing of the
destination set (Array.from of the JS Set). -/
structure TransferDiff where
  solChange : Int
  tokenChanges : List TokenChange
  destinations : List String
  feeAmount : Option Nat
deriving DecidableEq, Repr

/-- TransferValidationResult from src/types.ts. -/
structure TransferValidationResult where
  safe : Bool
  unknownAddresses : List String
deriving DecidableEq, Repr

/-! ## Transfer validator (src/core/simulate.ts, validateTransfers) -/

/-- Model of validateTransfers: walk diff.destinations in order, pushing
every destination that is not in the known set; safe iff none was pushed. -/
def validateTransfers (diff : TransferDiff) (knownAddresses : List String) :
    TransferValidationResult :=
  let unknownAddresses :=
    diff.destinations.foldl
      (fun acc dest => if dest ∈ knownAddresses then acc else acc ++ [dest]) []
  { safe := unknownAddresses.length == 0, unknownAddresses := unknownAddresses }

/-! ## Constants (src/constants.ts) -/

/-- SYSTEM_PROGRAM_ID from src/constants.ts (as a base58 string). -/
def SYSTEM_PROGRAM_ID : String := "11111111111111111111111111111111"

/-- TOKEN_PROGRAM_ID from src/constants.ts. -/
def TOKEN_PROGRAM_ID : String := "TokenkegQfeZyiNwAJbNbGKPFXCWuBvf9Ss623VQ5DA"

/-- ATA_PROGRAM_ID from src/constants.ts. -/
def ATA_PROGRAM_ID : String := "ATokenGPvbdGVxr1b2hvZbsiqW5xWH25efTNsLJA8knL"

/-- JUPITER_V6_PROGRAM_ID from src/constants.ts. -/
def JUPITER_V6_PROGRAM_ID : String := "JUP6LkbZbjS1jKKwapdHNy74zcZ3tLUZoi5QNyVTaV4"

/-- SOL_MINT from src/constants.ts. -/
def SOL_MINT : String := "So11111111111111111111111111111111111111112"

/-- USDC_MINT from src/constants.ts. -/
def USDC_MINT : String := "EPjFWdd5AufqSSqeM2qN1xzybapC8G4wEGGkZwyTDt1v"

/-- USDT_MINT from src/constants.ts. -/
def USDT_MINT : String := "Es9vMFrzaCERmJfrF4H2FYD4KCoNkY11McCe8BenwNYB"

/-- Lookup in the KNOWN_TOKENS table of src/constants.ts after the
toUpperCase applied by the allowlist resolution in validateSafety:
returns the mint of a hardcoded symbol, none otherwise. -/
def knownTokenMint (entry : String) : Option String :=
  if entry.toUpper = "SOL" then some SOL_MINT
  else if entry.toUpper = "USDC" then some USDC_MINT
  else if entry.toUpper = "USDT" then some USDT_MINT
  else none

/-- MAX_RETRIES from src/constants.ts. -/
def MAX_RETRIES : Nat := 3

/-- INITIAL_RETRY_DELAY_MS from src/constants.ts. -/
def INITIAL_RETRY_DELAY_MS : Nat := 1000

/-! ## Quote data model (src/types.ts) -/

/-- The platformFee record of a QuoteResult. The amount string is kept
verbatim; feeBps is a JS number, modelled as a rational. -/
structure PlatformFee where
  amount : String
  feeBps : ℚ
deriving DecidableEq, Repr

/-- The swapInfo record of a RoutePlanStep (src/types.ts). -/
structure SwapInfo where
  ammKey : String
  label : Option String
  inputMint : String
  outputMint : String
  inAmount : String
  outAmount : String
  feeAmount : String
  feeMint : String
deriving DecidableEq, Repr

/-- RoutePlanStep from src/types.ts. -/
structure RoutePlanStep where
  swapInfo : SwapInfo
  percent : ℚ
deriving DecidableEq, Repr

/-- QuoteResult from src/types.ts. The string fields inAmount and
priceImpactPct are modelled by their numeric values, because
validateSafety consumes them only through Number and parseFloat. -/
structure QuoteResult where
  inputMint : String
  outputMint : String
  inAmount : ℚ
  outAmount : ℚ
  otherAmountThreshold : ℚ
  swapMode : String
  slippageBps : ℚ
  platformFee : Option PlatformFee
  priceImpactPct : ℚ
  routePlan : List RoutePlanStep
  contextSlot : Option Nat
deriving DecidableEq, Repr

/-- SafetyConfig from src/types.ts; an absent field is none. -/
structure SafetyConfig where
  max_fee_bps : Option ℚ
  max_slippage_bps : Option ℚ
  max_price_impact_bps : Option ℚ
  max_trade_sol : Option ℚ
  allowlist : Option (List String)
  rpc_allowlist : Option (List String)
deriving DecidableEq, Repr

/-- A violation message pushed by validateSafety, modelled by which check
produced it together with the numbers the message interpolates. -/
inductive Violation where
  | platformFee (feeBps maxFee : ℚ)
  | slippage (bps maxBps : ℚ)
  | priceImpact (impactBps maxBps : ℚ)
  | tradeSize (solAmount maxSol : ℚ)
  | outputNotAllowed (outputMint : String)
deriving DecidableEq, Repr

/-- SafetyValidationResult from src/types.ts, with messages modelled by
the Violation type. -/
structure SafetyValidationResult where
  safe : Bool
  violations : List Violation
deriving DecidableEq, Repr

/-! ## Safety guardrail validator (src/core/safety.ts) -/

/-- The platform-fee block of validateSafety: pushes one violation when
max_fee_bps is configured, the quote carries a platformFee record, and
its feeBps exceeds the maximum. -/
def feeCheck (quote : QuoteResult) (cfg : SafetyConfig) : List Violation :=
  match cfg.max_fee_bps, quote.platformFee with
  | some maxFee, some pf =>
      if pf.feeBps > maxFee then [Violation.platformFee pf.feeBps maxFee] else []
  | _, _ => []

/-- The slippage block of validateSafety. -/
def slippageCheck (quote : QuoteResult) (cfg : SafetyConfig) : List Violation :=
  match cfg.max_slippage_bps with
  | some maxBps =>
      if quote.slippageBps > maxBps then [Violation.slippage quote.slippageBps maxBps] else []
  | none => []

/-- The price-impact block of validateSafety: the parsed percentage is
scaled by 100 into basis points. -/
def priceImpactCheck (quote : QuoteResult) (cfg : SafetyConfig) : List Violation :=
  match cfg.max_price_impact_bps with
  | some maxBps =>
      let impactBps := quote.priceImpactPct * 100
      if impactBps > maxBps then [Violation.priceImpact impactBps maxBps] else []
  | none => []

/-- The trade-size block of validateSafety: only applies when the input
mint is SOL; the raw amount is scaled by 1e9 into whole SOL. -/
def tradeSizeCheck (quote : QuoteResult) (cfg : SafetyConfig) : List Violation :=
  match cfg.max_trade_sol with
  | some maxSol =>
      if quote.inputMint = SOL_MINT then
        let solAmount := quote.inAmount / 1000000000
        if solAmount > maxSol then [Violation.tradeSize solAmount maxSol] else []
      else []
  | none => []

/-- The allowlist block of validateSafety: resolve each entry through the
KNOWN_TOKENS table (falling back to the literal entry), and require the
output mint to be among the resolved mints. Skipped when the allowlist is
absent or empty. -/
def allowlistCheck (quote : QuoteResult) (cfg : SafetyConfig) : List Violation :=
  match cfg.allowlist with
  | some entries =>
      if entries.length > 0 then
        let allowedMints := entries.foldl
          (fun acc entry =>
            match knownTokenMint entry with
            | some mint => addIfAbsent acc mint
            | none => addIfAbsent acc entry) []
        if quote.outputMint ∈ allowedMints then []
        else [Violation.outputNotAllowed quote.outputMint]
      else []
  | none => []

/-- Model of validateSafety (src/core/safety.ts): the five guardrail
blocks run unconditionally in source order, each appending its
violations; safe iff the final list is empty. -/
def validateSafety (quote : QuoteResult) (cfg : SafetyConfig) :
    SafetyValidationResult :=
  let violations :=
    feeCheck quote cfg ++ slippageCheck quote cfg ++ priceImpactCheck quote cfg
      ++ tradeSizeCheck quote cfg ++ allowlistCheck quote cfg
  { safe := violations.length == 0, violations := violations }

/-- Declarative predicate: the quote violates the configured platform-fee
guardrail. -/
def feeViolated (quote : QuoteResult) (cfg : SafetyConfig) : Bool :=
  match cfg.max_fee_bps, quote.platformFee with
  | some maxFee, some pf => decide (pf.feeBps > maxFee)
  | _, _ => false

/-- Declarative predicate: the quote violates the configured slippage
guardrail. -/
def slippageViolated (quote : QuoteResult) (cfg : SafetyConfig) : Bool :=
  match cfg.max_slippage_bps with
  | some maxBps => decide (quote.slippageBps > maxBps)
  | none => false

/-- Declarative predicate: the quote violates the configured price-impact
guardrail. -/
def priceImpactViolated (quote : QuoteResult) (cfg : SafetyConfig) : Bool :=
  match cfg.max_price_impact_bps with
  | some maxBps => decide (quote.priceImpactPct * 100 > maxBps)
  | none => false

/-- Declarative predicate: the quote violates the configured trade-size
guardrail. -/
def tradeSizeViolated (quote : QuoteResult) (cfg : SafetyConfig) : Bool :=
  match cfg.max_trade_sol with
  | some maxSol =>
      decide (quote.inputMint = SOL_MINT) && decide (quote.inAmount / 1000000000 > maxSol)
  | none => false

/-- Declarative predicate: the quote violates the configured output
allowlist guardrail. -/
def allowlistViolated (quote : QuoteResult) (cfg : SafetyConfig) : Bool :=
  match cfg.allowlist with
  | some entries =>
      decide (entries.length > 0) &&
        ! entries.any (fun entry =>
          ((knownTokenMint entry).getD entry) == quote.outputMint)
  | none => false

/-- Number of configured guardrails the quote violates. -/
def violatedCount (quote : QuoteResult) (cfg : SafetyConfig) : Nat :=
  (cond (feeViolated quote cfg) 1 0) + (cond (slippageViolated quote cfg) 1 0)
    + (cond (priceImpactViolated quote cfg) 1 0)
    + (cond (tradeSizeViolated quote cfg) 1 0)
    + (cond (allowlistViolated quote cfg) 1 0)

/-! ## Quote client retry logic (src/core/jupiter.ts) -/

/-- An HTTP response as consumed by getQuote: its status code, the parsed
error field of its JSON body when the body parses and carries one (the
try and catch around res.json in the error path), its status text, and
the body parsed as a quote (used only on success). -/
structure HttpResponse where
  status : Nat
  statusText : String
  errorField : Option String
  jsonQuote : QuoteResult

/-- The ok getter of a fetch Response: status in the 200 to 299 range. -/
def HttpResponse.ok (res : HttpResponse) : Bool :=
  decide (200 ≤ res.status) && decide (res.status < 300)

/-- An HTTP transport: the response that fetch yields on each successive
attempt (attempt 0 is the first call). -/
abbrev Transport : Type := Nat → HttpResponse

/-- The outcome of fetchWithRetry, instrumented for verification: the
returned response, the number of fetch invocations, and the list of
backoff delays slept, in order. -/
structure FetchOutcome where
  response : HttpResponse
  calls : Nat
  delays : List Nat

/-- The loop body of fetchWithRetry, starting at a given attempt with the
invocations and delays accumulated so far. On a non-429 status the
response is returned immediately; on 429 with attempts left, the loop
sleeps initialDelay times 2 to the attempt and retries; exhausting the
attempts returns the last 429 response. -/
def fetchWithRetryGo (transport : Transport) (retries : Nat) (attempt : Nat)
    (calls : Nat) (delays : List Nat) : FetchOutcome :=
  let res := transport attempt
  if res.status ≠ 429 then
    { response := res, calls := calls + 1, delays := delays }
  else if _h : attempt < retries then
    fetchWithRetryGo transport retries (attempt + 1) (calls + 1)
      (delays ++ [INITIAL_RETRY_DELAY_MS * 2 ^ attempt])
  else
    { response := res, calls := calls + 1, delays := delays }
termination_by retries - attempt
decreasing_by omega

/-- Model of fetchWithRetry (src/core/jupiter.ts) with the default retry
count MAX_RETRIES. -/
def fetchWithRetry (transport : Transport) (retries : Nat := MAX_RETRIES) :
    FetchOutcome :=
  fetchWithRetryGo transport retries 0 0 []

/-- The error message getQuote raises for a non-ok response: the body
error field when parseable, else the status code and status text. -/
def quoteFailureMessage (res : HttpResponse) : String :=
  match res.errorField with
  | some err => "Jupiter quote failed: " ++ err
  | none =>
      "Jupiter quote failed (" ++ toString res.status ++ "): " ++ res.statusText

/-- Model of getQuote (src/core/jupiter.ts): run fetchWithRetry against
the transport, fail with quoteFailureMessage when the final response is
not ok, otherwise return its body as the quote. The instrumented
invocation count and delays are returned alongside. -/
def getQuote (transport : Transport) :
    Except String QuoteResult × Nat × List Nat :=
  let out := fetchWithRetry transport
  if out.response.ok then
    (Except.ok out.response.jsonQuote, out.calls, out.delays)
  else
    (Except.error (quoteFailureMessage out.response), out.calls, out.delays)

/-! ## Receipt ledger (src/core/receipts.ts) -/

/-- TokenInfo from src/types.ts. -/
structure TokenInfo where
  symbol : String
  name : String
  mint : String
  decimals : Nat
  logoURI : Option String
deriving DecidableEq, Repr

/-- The fees record of a Receipt (src/types.ts). -/
structure ReceiptFees where
  platformFeeBps : Option ℚ
  platformFeeAmount : Option String
  networkFee : Option ℚ
deriving DecidableEq, Repr

/-- The status field of a Receipt (src/types.ts). -/
inductive ReceiptStatus where
  | success
  | failed
  | simulated
deriving DecidableEq, Repr

/-- Receipt from src/types.ts. -/
structure Receipt where
  timestamp : String
  txSignature : String
  inputToken : TokenInfo
  outputToken : TokenInfo
  inputAmount : String
  outputAmount : String
  route : String
  fees : ReceiptFees
  transferDiff : Option TransferDiff
  status : ReceiptStatus
  error : Option String
deriving DecidableEq, Repr

/-- One non-empty line of the receipts JSONL file, modelled by its parse
outcome: some receipt when JSON.parse succeeds on it, none for a
malformed (for example torn) line. JSON.stringify of a receipt never
contains a raw newline, so appended lines stay intact under the split on
newlines, and JSON.parse of JSON.stringify returns a deep-equal record;
a stored receipt is therefore modelled as the line that parses back to
it. -/
abbrev LedgerLine : Type := Option Receipt

/-- The receipts file: none when the file does not exist, otherwise its
lines in order. -/
abbrev LedgerFile : Type := Option (List LedgerLine)

/-- Model of storeReceipt (src/core/receipts.ts): append one
JSON-encoded line to the file (created empty when absent). -/
def storeReceipt (file : List LedgerLine) (receipt : Receipt) : List LedgerLine :=
  file ++ [some receipt]

/-- The line scan of lookupReceipt: skip lines that do not parse, return
the first parsed receipt whose txSignature matches. -/
def lookupScan (txSignature : String) : List LedgerLine → Option Receipt
  | [] => none
  | line :: rest =>
      match line with
      | some receipt =>
          if receipt.txSignature = txSignature then some receipt
          else lookupScan txSignature rest
      | none => lookupScan txSignature rest

/-- Model of lookupReceipt (src/core/receipts.ts): none when the file is
missing, otherwise scan the lines in order. -/
def lookupReceipt (txSignature : String) (file : LedgerFile) : Option Receipt :=
  match file with
  | none => none
  | some lines => lookupScan txSignature lines

/-! ## Simulation and diff engine (src/core/simulate.ts) -/

/-- One entry of preTokenBalances or postTokenBalances, with the defaults
simulateAndDiff applies on read already folded in: owner is the empty
string when absent, amount is the Number of the raw amount string (a
non-negative integer) defaulting to 0, decimals defaults to 0. -/
structure TokenBalance where
  accountIndex : Nat
  mint : String
  owner : String
  amount : Nat
  decimals : Nat
deriving DecidableEq, Repr

/-- The value simulateAndDiff stores in preMap for one pre-balance. -/
structure PreEntry where
  amount : Nat
  decimals : Nat
  owner : String
  mint : String
deriving DecidableEq, Repr

/-- The key of preMap: the accountIndex and mint pair (the source builds
the string accountIndex colon mint; mints are base58 so the pair is
equivalent). -/
abbrev TBKey : Type := Nat × String

/-- JavaScript Map.set on an association list: overwrite in place when
the key exists (keeping its original position), else append. -/
def mapSet (m : List (TBKey × PreEntry)) (k : TBKey) (v : PreEntry) :
    List (TBKey × PreEntry) :=
  if m.any (fun p => p.1 = k) then
    m.map (fun p => if p.1 = k then (k, v) else p)
  else m ++ [(k, v)]

/-- The preMap of simulateAndDiff: index every pre-balance record by its
accountIndex and mint. -/
def buildPreMap (preTokenBalances : List TokenBalance) : List (TBKey × PreEntry) :=
  preTokenBalances.foldl
    (fun m tb =>
      mapSet m (tb.accountIndex, tb.mint)
        { amount := tb.amount, decimals := tb.decimals, owner := tb.owner, mint := tb.mint })
    []

/-- JavaScript Map.get composed with the preAmount default of 0. -/
def preAmountOf (preMap : List (TBKey × PreEntry)) (k : TBKey) : Nat :=
  match preMap.find? (fun p => p.1 = k) with
  | some p => p.2.amount
  | none => 0

/-- The accumulator of the postTokenBalances loop of simulateAndDiff. -/
structure PostAcc where
  tokenChanges : List TokenChange
  seenKeys : List TBKey
  destinations : List String
deriving Repr

/-- One iteration of the postTokenBalances loop: record the key as seen,
push a TokenChange when the change is non-zero, and add the owner to the
destination set when the change is positive and the owner is non-empty
(the truthiness test on the owner string). -/
def processPostBalance (preMap : List (TBKey × PreEntry)) (acc : PostAcc)
    (tb : TokenBalance) : PostAcc :=
  let key : TBKey := (tb.accountIndex, tb.mint)
  let seenKeys := addIfAbsent acc.seenKeys key
  let preAmount := preAmountOf preMap key
  let change : Int := (tb.amount : Int) - (preAmount : Int)
  let tokenChanges :=
    if change ≠ 0 then
      acc.tokenChanges ++ [{ mint := tb.mint, symbol := none, change := change,
                             decimals := tb.decimals : TokenChange }]
    else acc.tokenChanges
  let destinations :=
    if change > 0 ∧ tb.owner ≠ "" then addIfAbsent acc.destinations tb.owner
    else acc.destinations
  { tokenChanges := tokenChanges, seenKeys := seenKeys, destinations := destinations }

/-- The drain loop of simulateAndDiff: for every preMap entry whose key
was not seen in the post set and whose amount is positive, push a
TokenChange draining the full pre amount. -/
def drainChanges (preMap : List (TBKey × PreEntry)) (seenKeys : List TBKey) :
    List TokenChange :=
  preMap.foldl
    (fun acc p =>
      if p.1 ∉ seenKeys ∧ p.2.amount > 0 then
        acc ++ [{ mint := p.2.mint, symbol := none, change := -(p.2.amount : Int),
                  decimals := p.2.decimals : TokenChange }]
      else acc)
    []

/-- The token-balance part of simulateAndDiff: the list of token changes
(post loop then drain loop) and the destination set collected from
token-balance owners, in insertion order. -/
def tokenDiff (preTokenBalances postTokenBalances : List TokenBalance) :
    List TokenChange × List String :=
  let preMap := buildPreMap preTokenBalances
  let acc := postTokenBalances.foldl (processPostBalance preMap)
    { tokenChanges := [], seenKeys := [], destinations := [] }
  (acc.tokenChanges ++ drainChanges preMap acc.seenKeys, acc.destinations)

/-- A built transaction, as far as destination collection reads it: a
legacy transaction is its instructions, each the list of its account key
addresses; a versioned transaction is its static account keys and its
compiled instructions, each the list of its account key indexes. -/
inductive Tx where
  | legacy (instructions : List (List String))
  | versioned (staticAccountKeys : List String) (compiledInstructions : List (List Nat))

/-- Model of collectInstructionDestinations: add every account key of the
instruction other than the wallet. -/
def collectInstructionDestinations (ixKeys : List String) (userKey : String)
    (destinations : List String) : List String :=
  ixKeys.foldl
    (fun dests addr => if addr ≠ userKey then addIfAbsent dests addr else dests)
    destinations

/-- Model of collectVersionedDestinations: for every account key index of
every compiled instruction, resolve it in the static account keys and add
it when defined, non-empty (the truthiness test) and not the wallet. -/
def collectVersionedDestinations (staticAccountKeys : List String)
    (compiledInstructions : List (List Nat)) (userKey : String)
    (destinations : List String) : List String :=
  compiledInstructions.foldl
    (fun dests ix =>
      ix.foldl
        (fun ds idx =>
          match staticAccountKeys.get? idx with
          | some addr =>
              if addr ≠ "" ∧ addr ≠ userKey then addIfAbsent ds addr else ds
          | none => ds)
        dests)
    destinations

/-- The instruction-walk part of simulateAndDiff, dispatching on the
transaction kind. -/
def collectTxDestinations (tx : Tx) (userKey : String)
    (destinations : List String) : List String :=
  match tx with
  | Tx.legacy instructions =>
      instructions.foldl
        (fun dests ixKeys => collectInstructionDestinations ixKeys userKey dests)
        destinations
  | Tx.versioned staticAccountKeys compiledInstructions =>
      collectVersionedDestinations staticAccountKeys compiledInstructions userKey
        destinations

/-- The simulation value simulateAndDiff reads, with each loosely-typed
field an explicit option: err is some message on failure, and the
balance vectors are absent when the RPC omits them (an empty array is
present, matching JavaScript truthiness of arrays). -/
structure SimValue where
  err : Option String
  logs : Option (List String)
  preBalances : Option (List Int)
  postBalances : Option (List Int)
  preTokenBalances : Option (List TokenBalance)
  postTokenBalances : Option (List TokenBalance)

/-- Model of simulateAndDiff (src/core/simulate.ts) after the RPC call:
fail when the simulation reports an error; otherwise compute the SOL
change from the first pre and post balances when present, the token
changes and token-owner destinations from the token balance vectors when
both are present, union in the instruction destinations, and attach the
fixed 5000 lamport fee estimate. -/
def simulateAndDiff (simValue : SimValue) (tx : Tx) (userKey : String) :
    Except String TransferDiff :=
  match simValue.err with
  | some errMsg => Except.error ("Transaction simulation failed: " ++ errMsg)
  | none =>
      let solChange : Int :=
        match simValue.preBalances, simValue.postBalances with
        | some simPre, some simPost =>
            if simPre.length > 0 then simPost.headD 0 - simPre.headD 0 else 0
        | _, _ => 0
      let tokenPart :=
        match simValue.preTokenBalances, simValue.postTokenBalances with
        | some pre, some post => tokenDiff pre post
        | _, _ => ([], [])
      let destinations := collectTxDestinations tx userKey tokenPart.2
      Except.ok
        { solChange := solChange, tokenChanges := tokenPart.1,
          destinations := destinations, feeAmount := some 5000 }

/-! ## Known-address registry (src/core/simulate.ts, buildKnownAddresses) -/

/-- Model of buildKnownAddresses. The associated-token-address derivation
of the spl-token library is an external pure function, passed in as
deriveAta mint owner, returning none when the library throws (invalid
mint or off-curve owner); validKey models whether new PublicKey accepts
the fee account string. The set is built in source order: wallet, the
four program identifiers, the wallet associated accounts per mint, then
the fee account and its associated accounts per mint. -/
def buildKnownAddresses (deriveAta : String → String → Option String)
    (validKey : String → Bool) (userKey : String) (feeAccount : Option String)
    (tokenMints : Option (List String)) : List String :=
  let known := addIfAbsent [] userKey
  let known := addIfAbsent known SYSTEM_PROGRAM_ID
  let known := addIfAbsent known TOKEN_PROGRAM_ID
  let known := addIfAbsent known ATA_PROGRAM_ID
  let known := addIfAbsent known JUPITER_V6_PROGRAM_ID
  let known :=
    match tokenMints with
    | some mints =>
        mints.foldl
          (fun k mint =>
            match deriveAta mint userKey with
            | some ata => addIfAbsent k ata
            | none => k)
          known
    | none => known
  match feeAccount with
  | some fee =>
      let known := addIfAbsent known fee
      match tokenMints with
      | some mints =>
          if validKey fee then
            mints.foldl
              (fun k mint =>
                match deriveAta mint fee with
                | some feeAta => addIfAbsent k feeAta
                | none => k)
              known
          else known
      | none => known
  | none => known

/-- A helper predicate for the receipt theorems: whether one ledger line
parses to a receipt carrying the given signature. -/
def lineMatches (line : LedgerLine) (txSignature : String) : Bool :=
  match line with
  | some receipt => receipt.txSignature == txSignature
  | none => false

/-! ## Concrete sample inputs used by the witnesses -/

/-- A concrete quote with no platform fee. -/
def witnessQuote : QuoteResult :=
  { inputMint := SOL_MINT, outputMint := USDC_MINT, inAmount := 1000000000,
    outAmount := 100, otherAmountThreshold := 99, swapMode := "ExactIn",
    slippageBps := 50, platformFee := none, priceImpactPct := 0,
    routePlan := [], contextSlot := none }

/-- The safety configuration with no guardrail configured. -/
def emptySafetyConfig : SafetyConfig :=
  { max_fee_bps := none, max_slippage_bps := none, max_price_impact_bps := none,
    max_trade_sol := none, allowlist := none, rpc_allowlist := none }

/-- A safety configuration whose only guardrail is a platform-fee maximum
of zero basis points. -/
def maxFeeZeroConfig : SafetyConfig :=
  { max_fee_bps := some 0, max_slippage_bps := none, max_price_impact_bps := none,
    max_trade_sol := none, allowlist := none, rpc_allowlist := none }

/-- A concrete rate-limited response. -/
def rateLimitedResponse : HttpResponse :=
  { status := 429, statusText := "Too Many Requests", errorField := none,
    jsonQuote := witnessQuote }

/-- A concrete success response. -/
def okResponse : HttpResponse :=
  { status := 200, statusText := "OK", errorField := none,
    jsonQuote := witnessQuote }

/-- A transport that rate-limits the first two attempts, then succeeds. -/
def flakyTransport : Transport := fun attempt =>
  if attempt < 2 then rateLimitedResponse else okResponse

/-- A simulation value whose post token balances contain a record owned
by the wallet W with a positive change (a swap crediting the wallet). -/
def walletCreditSimValue : SimValue :=
  { err := none, logs := none, preBalances := none, postBalances := none,
    preTokenBalances := some [],
    postTokenBalances := some
      [{ accountIndex := 0, mint := "M", owner := "W", amount := 100, decimals := 6 }] }

/-- A simulation value whose pre token balances hold one account with 100
units of mint M and whose post token balances are empty: a full drain. -/
def drainSimValue : SimValue :=
  { err := none, logs := none, preBalances := none, postBalances := none,
    preTokenBalances := some
      [{ accountIndex := 0, mint := "M", owner := "", amount := 100, decimals := 6 }],
    postTokenBalances := some [] }

/-- A concrete token description for sample receipts. -/
def witnessTokenInfo : TokenInfo :=
  { symbol := "SOL", name := "Solana", mint := SOL_MINT, decimals := 9,
    logoURI := none }

/-- A concrete receipt with signature SIGA. -/
def receiptA : Receipt :=
  { timestamp := "2025-01-01T00:00:00Z", txSignature := "SIGA",
    inputToken := witnessTokenInfo, outputToken := witnessTokenInfo,
    inputAmount := "1", outputAmount := "2", route := "Direct",
    fees := { platformFeeBps := none, platformFeeAmount := none, networkFee := none },
    transferDiff := none, status := ReceiptStatus.success, error := none }

/-- A concrete unrelated receipt with signature SIGB. -/
def receiptB : Receipt :=
  { timestamp := "2025-01-02T00:00:00Z", txSignature := "SIGB",
    inputToken := witnessTokenInfo, outputToken := witnessTokenInfo,
    inputAmount := "3", outputAmount := "4", route := "Direct",
    fees := { platformFeeBps := some 20, platformFeeAmount := some "1", networkFee := some 5000 },
    transferDiff := none, status := ReceiptStatus.failed, error := some "SendError" }

/-! ## Helper lemmas -/

theorem mem_addIfAbsent {α : Type} [DecidableEq α] (l : List α) (a x : α) :
    x ∈ addIfAbsent l a ↔ x ∈ l ∨ x = a := by
  unfold addIfAbsent
  split
  · rename_i h
    constructor
    · exact Or.inl
    · rintro (hx | rfl)
      · exact hx
      · exact h
  · simp

theorem foldl_pushUnknown (known : List String) (l : List String) (acc : List String) :
    l.foldl (fun acc dest => if dest ∈ known then acc else acc ++ [dest]) acc
      = acc ++ l.filter (fun dest => !(decide (dest ∈ known))) := by
  induction l generalizing acc with
  | nil => simp
  | cons d rest ih =>
    simp only [List.foldl_cons, List.filter_cons]
    by_cases h : d ∈ known
    · simp [h, ih]
    · simp [h, ih ((acc ++ [d]))]

theorem validateTransfers_unknown_eq (diff : TransferDiff) (known : List String) :
    (validateTransfers diff known).unknownAddresses
      = diff.destinations.filter (fun dest => !(decide (dest ∈ known))) := by
  unfold validateTransfers
  simp [foldl_pushUnknown]

theorem validateTransfers_safe_eq (diff : TransferDiff) (known : List String) :
    (validateTransfers diff known).safe
      = ((diff.destinations.filter (fun dest => !(decide (dest ∈ known)))).length == 0) := by
  unfold validateTransfers
  simp [foldl_pushUnknown]

/-! ## Claim C2 -/

/-- C2: validateTransfers returns safe iff every destination of the diff
is a member of the known-address set; when unsafe, its unknownAddresses
list contains every non-member destination, not just the first; and on
destinations A, B with known set containing only A it returns unsafe with
unknownAddresses containing exactly B. -/
theorem validateTransfers_safe_iff_complete (diff : TransferDiff) (known : List String) :
    ((validateTransfers diff known).safe = true ↔ ∀ dest ∈ diff.destinations, dest ∈ known)
    ∧ (∀ dest ∈ diff.destinations, dest ∉ known →
        dest ∈ (validateTransfers diff known).unknownAddresses)
    ∧ validateTransfers ⟨0, [], ["A", "B"], none⟩ ["A"] = ⟨false, ["B"]⟩ := by
  refine ⟨?_, ?_, by decide⟩
  · rw [validateTransfers_safe_eq]
    simp [List.length_eq_zero, List.filter_eq_nil_iff]
  · intro dest hmem hnk
    rw [validateTransfers_unknown_eq]
    simp [List.mem_filter, hmem, hnk]

/-- Witness for C2 at the concrete scenario. -/
theorem validateTransfers_safe_iff_complete_witness :
    "B" ∈ (validateTransfers ⟨0, [], ["A", "B"], none⟩ ["A"]).unknownAddresses :=
  (validateTransfers_safe_iff_complete ⟨0, [], ["A", "B"], none⟩ ["A"]).2.1
    "B" (by decide) (by decide)

/-! ## Claim C9 -/

/-- C9: validateTransfers is invariant under permutation of the diff
destinations: the safe verdict is equal, and the unknown-address lists
are a permutation of one another, hence the same set. -/
theorem validateTransfers_perm_invariant (dests1 dests2 known : List String)
    (solChange : Int) (tokenChanges : List TokenChange) (feeAmount : Option Nat)
    (hperm : dests1.Perm dests2) :
    ((validateTransfers ⟨solChange, tokenChanges, dests1, feeAmount⟩ known).safe
      = (validateTransfers ⟨solChange, tokenChanges, dests2, feeAmount⟩ known).safe)
    ∧ ((validateTransfers ⟨solChange, tokenChanges, dests1, feeAmount⟩
          known).unknownAddresses.Perm
        (validateTransfers ⟨solChange, tokenChanges, dests2, feeAmount⟩
          known).unknownAddresses)
    ∧ (∀ addr,
        addr ∈ (validateTransfers ⟨solChange, tokenChanges, dests1, feeAmount⟩
          known).unknownAddresses
        ↔ addr ∈ (validateTransfers ⟨solChange, tokenChanges, dests2, feeAmount⟩
          known).unknownAddresses) := by
  have hfilter := hperm.filter (fun dest => !(decide (dest ∈ known)))
  refine ⟨?_, ?_, ?_⟩
  · rw [validateTransfers_safe_eq, validateTransfers_safe_eq, hfilter.length_eq]
  · rw [validateTransfers_unknown_eq, validateTransfers_unknown_eq]
    exact hfilter
  · intro addr
    rw [validateTransfers_unknown_eq, validateTransfers_unknown_eq]
    exact hfilter.mem_iff

/-- Witness for C9 at a concrete permutation. -/
theorem validateTransfers_perm_invariant_witness :
    (validateTransfers ⟨0, [], ["A", "B"], none⟩ ["A"]).safe
      = (validateTransfers ⟨0, [], ["B", "A"], none⟩ ["A"]).safe :=
  (validateTransfers_perm_invariant ["A", "B"] ["B", "A"] ["A"] 0 [] none (by decide)).1

/-! ## Claim C4 -/

/-- C4: for any wallet distinct from the four fixed program identifiers,
buildKnownAddresses with no fee account and no mints returns exactly the
wallet together with the system, token, associated-token-account and
swap-router program identifiers: a set of size 5. -/
theorem buildKnownAddresses_default_set (deriveAta : String → String → Option String)
    (validKey : String → Bool) (userKey : String)
    (h : userKey ∉ [SYSTEM_PROGRAM_ID, TOKEN_PROGRAM_ID, ATA_PROGRAM_ID,
      JUPITER_V6_PROGRAM_ID]) :
    buildKnownAddresses deriveAta validKey userKey none none
      = [userKey, SYSTEM_PROGRAM_ID, TOKEN_PROGRAM_ID, ATA_PROGRAM_ID,
         JUPITER_V6_PROGRAM_ID]
    ∧ (buildKnownAddresses deriveAta validKey userKey none none).length = 5 := by
  have hs : userKey ≠ SYSTEM_PROGRAM_ID := by intro he; exact h (by simp [he])
  have ht : userKey ≠ TOKEN_PROGRAM_ID := by intro he; exact h (by simp [he])
  have ha : userKey ≠ ATA_PROGRAM_ID := by intro he; exact h (by simp [he])
  have hj : userKey ≠ JUPITER_V6_PROGRAM_ID := by intro he; exact h (by simp [he])
  have d1 : SYSTEM_PROGRAM_ID ≠ TOKEN_PROGRAM_ID := by decide
  have d2 : SYSTEM_PROGRAM_ID ≠ ATA_PROGRAM_ID := by decide
  have d3 : SYSTEM_PROGRAM_ID ≠ JUPITER_V6_PROGRAM_ID := by decide
  have d4 : TOKEN_PROGRAM_ID ≠ ATA_PROGRAM_ID := by decide
  have d5 : TOKEN_PROGRAM_ID ≠ JUPITER_V6_PROGRAM_ID := by decide
  have d6 : ATA_PROGRAM_ID ≠ JUPITER_V6_PROGRAM_ID := by decide
  have main : buildKnownAddresses deriveAta validKey userKey none none
      = [userKey, SYSTEM_PROGRAM_ID, TOKEN_PROGRAM_ID, ATA_PROGRAM_ID,
         JUPITER_V6_PROGRAM_ID] := by
    unfold buildKnownAddresses
    simp [addIfAbsent, Ne.symm hs, Ne.symm ht, Ne.symm ha, Ne.symm hj,
      d1, d2, d3, d4, d5, d6, Ne.symm d1, Ne.symm d2, Ne.symm d3, Ne.symm d4,
      Ne.symm d5, Ne.symm d6]
  exact ⟨main, by rw [main]; rfl⟩

/-- Witness for C4 at a concrete wallet address. -/
theorem buildKnownAddresses_default_set_witness :
    buildKnownAddresses (fun _ _ => none) (fun _ => true) "W" none none
      = ["W", SYSTEM_PROGRAM_ID, TOKEN_PROGRAM_ID, ATA_PROGRAM_ID,
         JUPITER_V6_PROGRAM_ID] :=
  (buildKnownAddresses_default_set (fun _ _ => none) (fun _ => true) "W" (by decide)).1

/-! ## Helper lemmas for the safety validator -/

theorem platformFee_notin_slippageCheck (q : QuoteResult) (c : SafetyConfig)
    (f m : ℚ) : Violation.platformFee f m ∉ slippageCheck q c := by
  unfold slippageCheck
  cases c.max_slippage_bps <;> simp

theorem platformFee_notin_priceImpactCheck (q : QuoteResult) (c : SafetyConfig)
    (f m : ℚ) : Violation.platformFee f m ∉ priceImpactCheck q c := by
  unfold priceImpactCheck
  cases c.max_price_impact_bps <;> simp

theorem platformFee_notin_tradeSizeCheck (q : QuoteResult) (c : SafetyConfig)
    (f m : ℚ) : Violation.platformFee f m ∉ tradeSizeCheck q c := by
  unfold tradeSizeCheck
  cases c.max_trade_sol <;> simp

theorem platformFee_notin_allowlistCheck (q : QuoteResult) (c : SafetyConfig)
    (f m : ℚ) : Violation.platformFee f m ∉ allowlistCheck q c := by
  unfold allowlistCheck
  cases c.allowlist <;> simp

/-! ## Claim C10 -/

/-- C10: when the quote carries no platformFee record, validateSafety
reports no platform-fee violation whatever maximum is configured, and its
result is the same as with the fee guardrail unconfigured; in particular
a quote can pass the fee guardrail even when max_fee_bps is 0. -/
theorem validateSafety_absent_platformFee (q : QuoteResult) (c : SafetyConfig)
    (h : q.platformFee = none) :
    validateSafety q c = validateSafety q { c with max_fee_bps := none }
    ∧ ∀ f m, Violation.platformFee f m ∉ (validateSafety q c).violations := by
  have hfee : feeCheck q c = [] := by
    unfold feeCheck
    rw [h]
    cases c.max_fee_bps <;> simp
  have hfee2 : feeCheck q { c with max_fee_bps := none } = [] := by
    unfold feeCheck
    simp
  constructor
  · unfold validateSafety
    rw [hfee, hfee2]
    simp [slippageCheck, priceImpactCheck, tradeSizeCheck, allowlistCheck]
  · intro f m
    unfold validateSafety
    rw [hfee]
    simp only [List.nil_append, List.mem_append]
    push_neg
    exact ⟨⟨⟨platformFee_notin_slippageCheck q c f m,
      platformFee_notin_priceImpactCheck q c f m⟩,
      platformFee_notin_tradeSizeCheck q c f m⟩,
      platformFee_notin_allowlistCheck q c f m⟩

/-- Witness for C10: a quote with no platformFee passes a configured
platform-fee maximum of zero. -/
theorem validateSafety_absent_platformFee_witness :
    validateSafety witnessQuote maxFeeZeroConfig
      = validateSafety witnessQuote { maxFeeZeroConfig with max_fee_bps := none } :=
  (validateSafety_absent_platformFee witnessQuote maxFeeZeroConfig rfl).1

/-! ## Length lemmas for the guardrail checks -/

theorem feeCheck_length (q : QuoteResult) (c : SafetyConfig) :
    (feeCheck q c).length = cond (feeViolated q c) 1 0 := by
  unfold feeCheck feeViolated
  cases c.max_fee_bps with
  | none => simp
  | some maxFee =>
    cases q.platformFee with
    | none => simp
    | some pf => by_cases hgt : pf.feeBps > maxFee <;> simp [hgt]

theorem slippageCheck_length (q : QuoteResult) (c : SafetyConfig) :
    (slippageCheck q c).length = cond (slippageViolated q c) 1 0 := by
  unfold slippageCheck slippageViolated
  cases c.max_slippage_bps with
  | none => simp
  | some maxBps => by_cases hgt : q.slippageBps > maxBps <;> simp [hgt]

theorem priceImpactCheck_length (q : QuoteResult) (c : SafetyConfig) :
    (priceImpactCheck q c).length = cond (priceImpactViolated q c) 1 0 := by
  unfold priceImpactCheck priceImpactViolated
  cases c.max_price_impact_bps with
  | none => simp
  | some maxBps => by_cases hgt : q.priceImpactPct * 100 > maxBps <;> simp [hgt]

theorem tradeSizeCheck_length (q : QuoteResult) (c : SafetyConfig) :
    (tradeSizeCheck q c).length = cond (tradeSizeViolated q c) 1 0 := by
  unfold tradeSizeCheck tradeSizeViolated
  cases c.max_trade_sol with
  | none => simp
  | some maxSol =>
    by_cases hsol : q.inputMint = SOL_MINT
    · by_cases hgt : q.inAmount / 1000000000 > maxSol <;> simp [hsol, hgt]
    · simp [hsol]

theorem mem_resolveAllowlist (entries : List String) (acc : List String) (x : String) :
    (x ∈ entries.foldl (fun acc entry =>
        match knownTokenMint entry with
        | some mint => addIfAbsent acc mint
        | none => addIfAbsent acc entry) acc)
    ↔ x ∈ acc ∨ entries.any
        (fun entry => ((knownTokenMint entry).getD entry) == x) = true := by
  induction entries generalizing acc with
  | nil => simp
  | cons e rest ih =>
    simp only [List.foldl_cons, List.any_cons, Bool.or_eq_true, beq_iff_eq]
    cases hk : knownTokenMint e with
    | none =>
      rw [ih, mem_addIfAbsent]
      simp only [hk, Option.getD_none]
      constructor
      · rintro ((hx | rfl) | hx)
        · exact Or.inl hx
        · exact Or.inr (Or.inl rfl)
        · exact Or.inr (Or.inr hx)
      · rintro (hx | (rfl | hx))
        · exact Or.inl (Or.inl hx)
        · exact Or.inl (Or.inr rfl)
        · exact Or.inr hx
    | some mint =>
      rw [ih, mem_addIfAbsent]
      simp only [hk, Option.getD_some]
      constructor
      · rintro ((hx | rfl) | hx)
        · exact Or.inl hx
        · exact Or.inr (Or.inl rfl)
        · exact Or.inr (Or.inr hx)
      · rintro (hx | (rfl | hx))
        · exact Or.inl (Or.inl hx)
        · exact Or.inl (Or.inr rfl)
        · exact Or.inr hx

theorem allowlistCheck_length (q : QuoteResult) (c : SafetyConfig) :
    (allowlistCheck q c).length = cond (allowlistViolated q c) 1 0 := by
  unfold allowlistCheck allowlistViolated
  cases c.allowlist with
  | none => simp
  | some entries =>
    by_cases hlen : entries.length > 0
    · by_cases hmem : q.outputMint ∈ entries.foldl (fun acc entry =>
          match knownTokenMint entry with
          | some mint => addIfAbsent acc mint
          | none => addIfAbsent acc entry) []
      · have hany : entries.any
            (fun entry => ((knownTokenMint entry).getD entry) == q.outputMint) = true := by
          rcases (mem_resolveAllowlist entries [] q.outputMint).mp hmem with hx | hx
          · exact absurd hx (by simp)
          · exact hx
        simp [hlen, hmem, hany]
      · have hany : entries.any
            (fun entry => ((knownTokenMint entry).getD entry) == q.outputMint) = false := by
          rw [Bool.eq_false_iff]
          intro hx
          exact hmem ((mem_resolveAllowlist entries [] q.outputMint).mpr (Or.inr hx))
        simp [hlen, hmem, hany]
    · simp [hlen]

/-! ## Claim C3 -/

/-- C3: validateSafety evaluates every configured guardrail without
short-circuiting: the number of violation messages equals the number of
violated guardrails, the quote is safe iff that number is zero, and with
no guardrail configured the result is safe with no violations. -/
theorem validateSafety_counts_violations (q : QuoteResult) (c : SafetyConfig) :
    ((validateSafety q c).violations.length = violatedCount q c)
    ∧ ((validateSafety q c).safe = true ↔ violatedCount q c = 0)
    ∧ (violatedCount q c = 0 → validateSafety q c = ⟨true, []⟩)
    ∧ (c.max_fee_bps = none → c.max_slippage_bps = none →
       c.max_price_impact_bps = none → c.max_trade_sol = none →
       (c.allowlist = none ∨ c.allowlist = some []) →
       validateSafety q c = ⟨true, []⟩) := by
  have hlen : (validateSafety q c).violations.length = violatedCount q c := by
    have hv : (validateSafety q c).violations
        = feeCheck q c ++ slippageCheck q c ++ priceImpactCheck q c
          ++ tradeSizeCheck q c ++ allowlistCheck q c := by
      simp [validateSafety]
    rw [hv]
    simp only [List.length_append, feeCheck_length, slippageCheck_length,
      priceImpactCheck_length, tradeSizeCheck_length, allowlistCheck_length,
      violatedCount]
  have hs : (validateSafety q c).safe
      = ((validateSafety q c).violations.length == 0) := by
    simp [validateSafety]
  refine ⟨hlen, ?_, ?_, ?_⟩
  · rw [hs, hlen]
    exact beq_iff_eq
  · intro hzero
    have hempty : (validateSafety q c).violations = [] :=
      List.length_eq_zero.mp (by rw [hlen, hzero])
    have hsafe : (validateSafety q c).safe = true := by
      rw [hs, hlen, hzero]
      rfl
    cases hres : validateSafety q c
    rw [hres] at hempty hsafe
    simp at hempty hsafe
    rw [hempty, hsafe]
  · intro h1 h2 h3 h4 h5
    have hfee : feeCheck q c = [] := by
      unfold feeCheck; rw [h1]
    have hslip : slippageCheck q c = [] := by
      unfold slippageCheck; rw [h2]
    have himp : priceImpactCheck q c = [] := by
      unfold priceImpactCheck; rw [h3]
    have htrade : tradeSizeCheck q c = [] := by
      unfold tradeSizeCheck; rw [h4]
    have hallow : allowlistCheck q c = [] := by
      unfold allowlistCheck
      rcases h5 with h5 | h5
      · rw [h5]
      · rw [h5]; simp
    simp [validateSafety, hfee, hslip, himp, htrade, hallow]

/-- Witness for C3: with no guardrail configured the concrete quote is
safe with no violations. -/
theorem validateSafety_counts_violations_witness :
    validateSafety witnessQuote emptySafetyConfig = ⟨true, []⟩ :=
  (validateSafety_counts_violations witnessQuote emptySafetyConfig).2.2.2
    rfl rfl rfl rfl (Or.inl rfl)

/-! ## Step lemmas for the retry loop -/

theorem fetchWithRetryGo_stop (transport : Transport) (retries attempt calls : Nat)
    (delays : List Nat) (h : (transport attempt).status ≠ 429) :
    fetchWithRetryGo transport retries attempt calls delays
      = { response := transport attempt, calls := calls + 1, delays := delays } := by
  unfold fetchWithRetryGo
  simp [h]

theorem fetchWithRetryGo_retry (transport : Transport) (retries attempt calls : Nat)
    (delays : List Nat) (h : (transport attempt).status = 429)
    (hlt : attempt < retries) :
    fetchWithRetryGo transport retries attempt calls delays
      = fetchWithRetryGo transport retries (attempt + 1) (calls + 1)
          (delays ++ [INITIAL_RETRY_DELAY_MS * 2 ^ attempt]) := by
  conv_lhs => rw [fetchWithRetryGo]
  simp [h, hlt]

theorem fetchWithRetryGo_exhaust (transport : Transport) (retries attempt calls : Nat)
    (delays : List Nat) (h : (transport attempt).status = 429)
    (hge : ¬ attempt < retries) :
    fetchWithRetryGo transport retries attempt calls delays
      = { response := transport attempt, calls := calls + 1, delays := delays } := by
  conv_lhs => rw [fetchWithRetryGo]
  simp [h, hge]

theorem fetchWithRetryGo_stops (transport : Transport) (retries j : Nat)
    (hstop : (transport j).status ≠ 429) :
    ∀ n attempt calls delays, j - attempt = n → attempt ≤ j → j ≤ retries →
    (∀ i, attempt ≤ i → i < j → (transport i).status = 429) →
    (fetchWithRetryGo transport retries attempt calls delays).response = transport j
    ∧ (fetchWithRetryGo transport retries attempt calls delays).calls
        = calls + (j - attempt) + 1 := by
  intro n
  induction n with
  | zero =>
    intro attempt calls delays hn hle hjr h429
    have ha : attempt = j := by omega
    subst ha
    rw [fetchWithRetryGo_stop transport retries attempt calls delays hstop]
    exact ⟨rfl, by simp [Nat.sub_self]⟩
  | succ m ih =>
    intro attempt calls delays hn hle hjr h429
    have hlt : attempt < j := by omega
    have h429a : (transport attempt).status = 429 := h429 attempt le_rfl hlt
    rw [fetchWithRetryGo_retry transport retries attempt calls delays h429a (by omega)]
    obtain ⟨hr, hc⟩ := ih (attempt + 1) (calls + 1)
      (delays ++ [INITIAL_RETRY_DELAY_MS * 2 ^ attempt]) (by omega) (by omega) hjr
      (fun i h1 h2 => h429 i (by omega) h2)
    exact ⟨hr, by rw [hc]; omega⟩

/-! ## Claim C5 -/

/-- C5: getQuote retries only on HTTP 429: a first response with any
other status ends the fetch after exactly one invocation, and when it is
not a success the call fails with the message from the body error field
when parseable, else the status text. Exhausting all retries on 429
(MAX_RETRIES is 3, so 4 invocations) fails with the last 429 response,
having slept the exponential backoff delays 1000, 2000, 4000 ms. A
transport answering 429 twice then 200 succeeds with the third response
body after exactly 3 invocations and delays 1000, 2000 ms. Generally, the
transport is invoked exactly j plus 1 times when the first non-429
response arrives at attempt j within the retry budget. -/
theorem getQuote_retry_policy :
    (∀ (transport : Transport) (j : Nat), j ≤ MAX_RETRIES →
        (∀ i, i < j → (transport i).status = 429) → (transport j).status ≠ 429 →
        (getQuote transport).2.1 = j + 1)
    ∧ (∀ transport : Transport, (transport 0).status ≠ 429 →
        (getQuote transport).2.1 = 1
        ∧ ((transport 0).ok = false →
            (getQuote transport).1 = Except.error (quoteFailureMessage (transport 0))))
    ∧ (∀ transport : Transport,
        (transport 0).status = 429 → (transport 1).status = 429 →
        (transport 2).status = 429 → (transport 3).status = 429 →
        (getQuote transport).1 = Except.error (quoteFailureMessage (transport 3))
        ∧ (getQuote transport).2.1 = 4
        ∧ (getQuote transport).2.2 = [1000, 2000, 4000])
    ∧ (∀ transport : Transport,
        (transport 0).status = 429 → (transport 1).status = 429 →
        (transport 2).status = 200 →
        (getQuote transport).1 = Except.ok (transport 2).jsonQuote
        ∧ (getQuote transport).2.1 = 3
        ∧ (getQuote transport).2.2 = [1000, 2000]) := by
  refine ⟨?_, ?_, ?_, ?_⟩
  · intro transport j hj h429 hstop
    obtain ⟨hr, hc⟩ := fetchWithRetryGo_stops transport MAX_RETRIES j hstop
      (j - 0) 0 0 [] rfl (by omega) hj (fun i h1 h2 => h429 i h2)
    have hfc : (fetchWithRetry transport).calls = j + 1 := by
      unfold fetchWithRetry
      omega
    by_cases hok : (fetchWithRetry transport).response.ok <;>
      simp [getQuote, hok, hfc]
  · intro transport h0
    have hfetch : fetchWithRetry transport
        = { response := transport 0, calls := 1, delays := [] } :=
      fetchWithRetryGo_stop transport MAX_RETRIES 0 0 [] h0
    constructor
    · by_cases hok : (transport 0).ok <;> simp [getQuote, hfetch, hok]
    · intro hok
      simp [getQuote, hfetch, hok]
  · intro transport h0 h1 h2 h3
    have h3ok : (transport 3).ok = false := by
      unfold HttpResponse.ok
      rw [h3]
      decide
    have hfetch : fetchWithRetry transport
        = { response := transport 3, calls := 4, delays := [1000, 2000, 4000] } := by
      unfold fetchWithRetry
      rw [fetchWithRetryGo_retry transport MAX_RETRIES 0 0 [] h0 (by decide)]
      norm_num [INITIAL_RETRY_DELAY_MS]
      rw [fetchWithRetryGo_retry transport MAX_RETRIES 1 1 [1000] h1 (by decide)]
      norm_num [INITIAL_RETRY_DELAY_MS]
      rw [fetchWithRetryGo_retry transport MAX_RETRIES 2 2 [1000, 2000] h2 (by decide)]
      norm_num [INITIAL_RETRY_DELAY_MS]
      rw [fetchWithRetryGo_exhaust transport MAX_RETRIES 3 3 [1000, 2000, 4000] h3
        (by decide)]
    refine ⟨?_, ?_, ?_⟩ <;> simp [getQuote, hfetch, h3ok]
  · intro transport h0 h1 h2
    have h2ne : (transport 2).status ≠ 429 := by
      rw [h2]
      decide
    have h2ok : (transport 2).ok = true := by
      unfold HttpResponse.ok
      rw [h2]
      decide
    have hfetch : fetchWithRetry transport
        = { response := transport 2, calls := 3, delays := [1000, 2000] } := by
      unfold fetchWithRetry
      rw [fetchWithRetryGo_retry transport MAX_RETRIES 0 0 [] h0 (by decide)]
      norm_num [INITIAL_RETRY_DELAY_MS]
      rw [fetchWithRetryGo_retry transport MAX_RETRIES 1 1 [1000] h1 (by decide)]
      norm_num [INITIAL_RETRY_DELAY_MS]
      rw [fetchWithRetryGo_stop transport MAX_RETRIES 2 2 [1000, 2000] h2ne]
    refine ⟨?_, ?_, ?_⟩ <;> simp [getQuote, hfetch, h2ok]

/-- Witness for C5 at the concrete flaky transport: two rate limits, then
success after exactly three invocations. -/
theorem getQuote_retry_policy_witness :
    (getQuote flakyTransport).1 = Except.ok (flakyTransport 2).jsonQuote
    ∧ (getQuote flakyTransport).2.1 = 3
    ∧ (getQuote flakyTransport).2.2 = [1000, 2000] :=
  getQuote_retry_policy.2.2.2 flakyTransport rfl rfl rfl

/-! ## Helper lemma for the receipt ledger -/

theorem lookupScan_append_no_match (sig : String) (file : List LedgerLine)
    (h : ∀ line ∈ file, lineMatches line sig = false) (rest : List LedgerLine) :
    lookupScan sig (file ++ rest) = lookupScan sig rest := by
  induction file with
  | nil => rfl
  | cons line tail ih =>
    have hline := h line (by simp)
    have htail : ∀ l ∈ tail, lineMatches l sig = false := fun l hl => h l (by simp [hl])
    cases line with
    | none => simpa [lookupScan] using ih htail
    | some rcpt =>
      have hne : rcpt.txSignature ≠ sig := by simpa [lineMatches] using hline
      simp [lookupScan, hne, ih htail]

/-! ## Claim C7 -/

/-- C7: storing a receipt then looking its signature up returns a value
equal to what was stored, whatever receipts with other signatures (and
whatever malformed lines) preceded it in the file. -/
theorem storeReceipt_lookupReceipt_roundtrip (file : List LedgerLine) (r : Receipt)
    (h : ∀ line ∈ file, lineMatches line r.txSignature = false) :
    lookupReceipt r.txSignature (some (storeReceipt file r)) = some r := by
  show lookupScan r.txSignature (file ++ [some r]) = some r
  rw [lookupScan_append_no_match r.txSignature file h [some r]]
  simp [lookupScan]

/-- Witness for C7: store after a torn line and an unrelated receipt,
then look up. -/
theorem storeReceipt_lookupReceipt_roundtrip_witness :
    lookupReceipt receiptA.txSignature
      (some (storeReceipt [none, some receiptB] receiptA)) = some receiptA :=
  storeReceipt_lookupReceipt_roundtrip [none, some receiptB] receiptA (by decide)

/-! ## Claim C8 -/

/-- C8: lookupReceipt is a total function (the model never throws): a
missing file yields not-found, a file with no matching signature yields
not-found, an unparseable line is skipped without aborting the scan, and
when a match exists the first matching line in file order is returned. -/
theorem lookupReceipt_not_found_and_skip :
    (∀ sig : String, lookupReceipt sig none = none)
    ∧ (∀ (sig : String) (lines : List LedgerLine),
        (∀ line ∈ lines, lineMatches line sig = false) →
        lookupReceipt sig (some lines) = none)
    ∧ (∀ (sig : String) (rest : List LedgerLine),
        lookupScan sig (none :: rest) = lookupScan sig rest)
    ∧ (∀ (sig : String) (earlier : List LedgerLine) (r : Receipt)
        (rest : List LedgerLine),
        (∀ line ∈ earlier, lineMatches line sig = false) →
        r.txSignature = sig →
        lookupReceipt sig (some (earlier ++ some r :: rest)) = some r) := by
  refine ⟨fun _ => rfl, ?_, fun _ _ => rfl, ?_⟩
  · intro sig lines h
    show lookupScan sig lines = none
    have hnil := lookupScan_append_no_match sig lines h []
    rwa [List.append_nil] at hnil
  · intro sig earlier r rest h hsig
    show lookupScan sig (earlier ++ some r :: rest) = some r
    rw [lookupScan_append_no_match sig earlier h (some r :: rest)]
    simp [lookupScan, hsig]

/-- Witness for C8: scanning past an unrelated receipt and a torn line
finds the first match. -/
theorem lookupReceipt_not_found_and_skip_witness :
    lookupReceipt "SIGA" (some ([some receiptB, none] ++ some receiptA :: [none]))
      = some receiptA :=
  lookupReceipt_not_found_and_skip.2.2.2 "SIGA" [some receiptB, none] receiptA [none]
    (by decide) (by decide)

/-! ## Helper lemmas for the simulation diff engine -/

theorem processPostBalance_seenKeys (preMap : List (TBKey × PreEntry)) (acc : PostAcc)
    (tb : TokenBalance) :
    (processPostBalance preMap acc tb).seenKeys
      = addIfAbsent acc.seenKeys (tb.accountIndex, tb.mint) := rfl

theorem processPostBalance_destinations (preMap : List (TBKey × PreEntry)) (acc : PostAcc)
    (tb : TokenBalance) :
    (processPostBalance preMap acc tb).destinations
      = if (tb.amount : Int) - (preAmountOf preMap (tb.accountIndex, tb.mint) : Int) > 0
            ∧ tb.owner ≠ "" then
          addIfAbsent acc.destinations tb.owner
        else acc.destinations := rfl

theorem foldl_guard_append {α β : Type} (p : α → Prop) [DecidablePred p] (f : α → β)
    (l : List α) (acc : List β) :
    l.foldl (fun acc a => if p a then acc ++ [f a] else acc) acc
      = acc ++ (l.filter (fun a => decide (p a))).map f := by
  induction l generalizing acc with
  | nil => simp
  | cons a tail ih =>
    by_cases hp : p a <;> simp [hp, ih]

theorem drainChanges_eq (preMap : List (TBKey × PreEntry)) (seen : List TBKey) :
    drainChanges preMap seen
      = (preMap.filter (fun p => decide (p.1 ∉ seen ∧ p.2.amount > 0))).map
          (fun p => { mint := p.2.mint, symbol := none, change := -(p.2.amount : Int),
                      decimals := p.2.decimals : TokenChange }) := by
  unfold drainChanges
  exact foldl_guard_append _ _ _ _

theorem mem_drainChanges (preMap : List (TBKey × PreEntry)) (seen : List TBKey)
    (k : TBKey) (e : PreEntry) (hmem : (k, e) ∈ preMap) (hns : k ∉ seen)
    (hamt : 0 < e.amount) :
    ({ mint := e.mint, symbol := none, change := -(e.amount : Int),
       decimals := e.decimals : TokenChange }) ∈ drainChanges preMap seen := by
  rw [drainChanges_eq]
  refine List.mem_map.mpr ⟨(k, e), List.mem_filter.mpr ⟨hmem, ?_⟩, rfl⟩
  simp [hns, hamt]

theorem seenKeys_sub (preMap : List (TBKey × PreEntry)) (post : List TokenBalance)
    (acc : PostAcc) (k : TBKey) :
    k ∈ (post.foldl (processPostBalance preMap) acc).seenKeys →
    k ∈ acc.seenKeys ∨ ∃ tb ∈ post, ((tb.accountIndex, tb.mint) : TBKey) = k := by
  induction post generalizing acc with
  | nil => exact fun h => Or.inl h
  | cons tb tail ih =>
    intro h
    rcases ih (processPostBalance preMap acc tb) h with h1 | ⟨tb2, htb2, hk⟩
    · rw [processPostBalance_seenKeys] at h1
      rcases (mem_addIfAbsent acc.seenKeys (tb.accountIndex, tb.mint) k).mp h1 with h2 | h2
      · exact Or.inl h2
      · exact Or.inr ⟨tb, by simp, h2.symm⟩
    · exact Or.inr ⟨tb2, by simp [htb2], hk⟩

theorem mem_postDestinations (preMap : List (TBKey × PreEntry))
    (post : List TokenBalance) (acc : PostAcc) (x : String) :
    x ∈ (post.foldl (processPostBalance preMap) acc).destinations →
    x ∈ acc.destinations
    ∨ ∃ tb ∈ post, tb.owner = x
        ∧ 0 < (tb.amount : Int)
            - (preAmountOf preMap (tb.accountIndex, tb.mint) : Int) := by
  induction post generalizing acc with
  | nil => exact fun h => Or.inl h
  | cons tb tail ih =>
    intro h
    rcases ih (processPostBalance preMap acc tb) h with h1 | ⟨tb2, htb2, hx, hpos⟩
    · rw [processPostBalance_destinations] at h1
      split at h1
      · rename_i hcond
        rcases (mem_addIfAbsent acc.destinations tb.owner x).mp h1 with h2 | h2
        · exact Or.inl h2
        · exact Or.inr ⟨tb, by simp, h2.symm, hcond.1⟩
      · exact Or.inl h1
    · exact Or.inr ⟨tb2, by simp [htb2], hx, hpos⟩

theorem user_mem_collectInstructionDestinations (ixKeys : List String) (u : String)
    (dests : List String) :
    u ∈ collectInstructionDestinations ixKeys u dests → u ∈ dests := by
  unfold collectInstructionDestinations
  induction ixKeys generalizing dests with
  | nil => exact fun h => h
  | cons addr tail ih =>
    intro h
    simp only [List.foldl_cons] at h
    by_cases ha : addr ≠ u
    · rw [if_pos ha] at h
      rcases (mem_addIfAbsent dests addr u).mp (ih (addIfAbsent dests addr) h) with h1 | h1
      · exact h1
      · exact absurd h1.symm ha
    · rw [if_neg ha] at h
      exact ih dests h

theorem user_mem_versionedInner (staticAccountKeys : List String) (ix : List Nat)
    (u : String) (dests : List String) :
    u ∈ ix.foldl
        (fun ds idx =>
          match staticAccountKeys.get? idx with
          | some addr => if addr ≠ "" ∧ addr ≠ u then addIfAbsent ds addr else ds
          | none => ds)
        dests → u ∈ dests := by
  induction ix generalizing dests with
  | nil => exact fun h => h
  | cons idx tail ih =>
    intro h
    simp only [List.foldl_cons] at h
    split at h
    · rename_i addr heq
      split at h
      · rename_i hc
        rcases (mem_addIfAbsent dests addr u).mp (ih (addIfAbsent dests addr) h)
          with h1 | h1
        · exact h1
        · exact absurd h1.symm hc.2
      · exact ih dests h
    · exact ih dests h

theorem user_mem_collectTxDestinations (tx : Tx) (u : String) (dests : List String) :
    u ∈ collectTxDestinations tx u dests → u ∈ dests := by
  cases tx with
  | legacy instructions =>
    unfold collectTxDestinations
    induction instructions generalizing dests with
    | nil => exact fun h => h
    | cons ixKeys tail ih =>
      intro h
      simp only [List.foldl_cons] at h
      exact user_mem_collectInstructionDestinations ixKeys u dests
        (ih (collectInstructionDestinations ixKeys u dests) h)
  | versioned staticAccountKeys compiledInstructions =>
    unfold collectTxDestinations collectVersionedDestinations
    induction compiledInstructions generalizing dests with
    | nil => exact fun h => h
    | cons ix tail ih =>
      intro h
      simp only [List.foldl_cons] at h
      exact user_mem_versionedInner staticAccountKeys ix u dests
        (ih _ h)

/-! ## Claim C6 -/

/-- C6: in the token-change computation of simulateAndDiff, every key
present only in the pre-simulation token balances with a non-zero amount
yields a TokenChange draining the full pre amount; in particular one pre
balance of 100 units of mint M with empty post balances yields exactly
the token change of minus 100 on M. -/
theorem simulateAndDiff_drain_emitted (sv : SimValue) (tx : Tx) (userKey : String)
    (pre post : List TokenBalance) (d : TransferDiff) (k : TBKey) (e : PreEntry)
    (hpre : sv.preTokenBalances = some pre) (hpost : sv.postTokenBalances = some post)
    (hok : simulateAndDiff sv tx userKey = Except.ok d)
    (hmem : (k, e) ∈ buildPreMap pre) (hamt : 0 < e.amount)
    (honly : ∀ tb ∈ post, ((tb.accountIndex, tb.mint) : TBKey) ≠ k) :
    (({ mint := e.mint, symbol := none, change := -(e.amount : Int),
        decimals := e.decimals : TokenChange }) ∈ d.tokenChanges)
    ∧ ((simulateAndDiff drainSimValue (Tx.legacy []) "W").toOption.map
          TransferDiff.tokenChanges
        = some [{ mint := "M", symbol := none, change := -100, decimals := 6 }]) := by
  refine ⟨?_, by decide⟩
  unfold simulateAndDiff at hok
  cases herr : sv.err with
  | some msg =>
    rw [herr] at hok
    simp at hok
  | none =>
    rw [herr, hpre, hpost] at hok
    have hd := Except.ok.inj hok
    subst hd
    show _ ∈ (tokenDiff pre post).1
    unfold tokenDiff
    refine List.mem_append.mpr (Or.inr ?_)
    refine mem_drainChanges (buildPreMap pre) _ k e hmem ?_ hamt
    intro hk
    rcases seenKeys_sub (buildPreMap pre) post
        { tokenChanges := [], seenKeys := [], destinations := [] } k hk with h1 | ⟨tb, htb, hkey⟩
    · simp at h1
    · exact honly tb htb hkey

/-- Witness for C6 at the concrete drain scenario. -/
theorem simulateAndDiff_drain_emitted_witness :
    ({ mint := "M", symbol := none, change := -(100 : Int), decimals := 6 : TokenChange })
      ∈ (TransferDiff.mk 0
          [{ mint := "M", symbol := none, change := -100, decimals := 6 }] []
          (some 5000)).tokenChanges :=
  (simulateAndDiff_drain_emitted drainSimValue (Tx.legacy []) "W"
    [{ accountIndex := 0, mint := "M", owner := "", amount := 100, decimals := 6 }] []
    (TransferDiff.mk 0 [{ mint := "M", symbol := none, change := -100, decimals := 6 }]
      [] (some 5000))
    (0, "M") { amount := 100, decimals := 6, owner := "", mint := "M" }
    rfl rfl rfl (by decide) (by decide) (by simp)).1

/-! ## Claim C1 -/

/-- Counterexample to C1: the token-balance destination collection does
not exclude the wallet. Simulating a transaction whose post token
balances credit an account owned by the wallet W puts W itself into the
destinations of the returned TransferDiff. -/
theorem simulateAndDiff_wallet_destination_cex :
    ∃ d, simulateAndDiff walletCreditSimValue (Tx.legacy []) "W" = Except.ok d
      ∧ "W" ∈ d.destinations :=
  ⟨TransferDiff.mk 0 [{ mint := "M", symbol := none, change := 100, decimals := 6 }]
      ["W"] (some 5000),
    rfl, by decide⟩

/-- C1 amended: the wallet address can reach the destinations of a
TransferDiff only through the token-balance-owner signal: whenever the
wallet is among the destinations, some post token balance is owned by the
wallet and has a positive change. The instruction account-key collection
(both legacy and versioned) never contributes the wallet. -/
theorem simulateAndDiff_wallet_destination_source (sv : SimValue) (tx : Tx)
    (userKey : String) (d : TransferDiff)
    (hok : simulateAndDiff sv tx userKey = Except.ok d)
    (hw : userKey ∈ d.destinations) :
    ∃ pre post, sv.preTokenBalances = some pre ∧ sv.postTokenBalances = some post
      ∧ ∃ tb ∈ post, tb.owner = userKey
        ∧ 0 < (tb.amount : Int)
            - (preAmountOf (buildPreMap pre) (tb.accountIndex, tb.mint) : Int) := by
  unfold simulateAndDiff at hok
  cases herr : sv.err with
  | some msg =>
    rw [herr] at hok
    simp at hok
  | none =>
    rw [herr] at hok
    cases hpre : sv.preTokenBalances with
    | none =>
      cases hpost : sv.postTokenBalances with
      | none =>
        rw [hpre, hpost] at hok
        have hd := Except.ok.inj hok
        subst hd
        have h0 := user_mem_collectTxDestinations tx userKey _ hw
        simp at h0
      | some post =>
        rw [hpre, hpost] at hok
        have hd := Except.ok.inj hok
        subst hd
        have h0 := user_mem_collectTxDestinations tx userKey _ hw
        simp at h0
    | some pre =>
      cases hpost : sv.postTokenBalances with
      | none =>
        rw [hpre, hpost] at hok
        have hd := Except.ok.inj hok
        subst hd
        have h0 := user_mem_collectTxDestinations tx userKey _ hw
        simp at h0
      | some post =>
        rw [hpre, hpost] at hok
        have hd := Except.ok.inj hok
        subst hd
        have hw2 := user_mem_collectTxDestinations tx userKey (tokenDiff pre post).2 hw
        rcases mem_postDestinations (buildPreMap pre) post
            { tokenChanges := [], seenKeys := [], destinations := [] } userKey hw2
          with h1 | ⟨tb, htb, hown, hpos⟩
        · simp at h1
        · exact ⟨pre, post, rfl, rfl, tb, htb, hown, hpos⟩

/-- Witness for the amended C1 at the concrete wallet-credit input. -/
theorem simulateAndDiff_wallet_destination_source_witness :
    ∃ pre post, walletCreditSimValue.preTokenBalances = some pre
      ∧ walletCreditSimValue.postTokenBalances = some post
      ∧ ∃ tb ∈ post, tb.owner = "W"
        ∧ 0 < (tb.amount : Int)
            - (preAmountOf (buildPreMap pre) (tb.accountIndex, tb.mint) : Int) :=
  simulateAndDiff_wallet_destination_source walletCreditSimValue (Tx.legacy []) "W"
    (TransferDiff.mk 0 [{ mint := "M", symbol := none, change := 100, decimals := 6 }]
      ["W"] (some 5000))
    rfl (by decide)

end ClawDex
